import Mathlib

/-!
Verification of `lingq_downloader.py` (LingQ vocabulary downloader).

The development shallowly embeds the program's core:

* `PyVal` — a model of the Python/JSON values the program manipulates.
* `step` / `runLoop` — the paginated-retrieval loop of
  `LingQDownloader.get_lingqs_for_language` (lines 55–126), driven by a list
  of server responses, one response consumed per HTTP request issued.
* `flattenLingq` — `LingQDownloader.flatten_lingq` (lines 128–160); it
  returns `Option` because the Python function can raise on ill-shaped input
  (e.g. a non-list `hints` value).
* `saveToCsv` — `LingQDownloader.save_to_csv` (lines 168–188).
* `downloadAllLingqs` / `incompleteLanguages` — the per-language loop of
  `download_all_lingqs` (lines 251–256) and the incomplete-language report
  of `main` (lines 324–334).
-/

/-- A model of the Python values (JSON-shaped) handled by the program. -/
inductive PyVal where
  | vnone
  | vbool (b : Bool)
  | vint (n : Int)
  | vstr (s : String)
  | vlist (xs : List PyVal)
  | vdict (fields : List (String × PyVal))
deriving Repr

/-- `d.get(k, dflt)` on a Python dict (non-dict receivers never occur where
this is used; they are given the default, unused). -/
def dictGet (v : PyVal) (k : String) (dflt : PyVal) : PyVal :=
  match v with
  | .vdict fs =>
    match fs.lookup k with
    | some w => w
    | none => dflt
  | _ => dflt

/-- Python truthiness of a value, as used in `if lingq.get('hints'):`,
`if not results:`, `if not data.get('next')`, `if lingqs:`. -/
def truthy : PyVal → Bool
  | .vnone => false
  | .vbool b => b
  | .vint n => n != 0
  | .vstr s => s != ""
  | .vlist xs => !xs.isEmpty
  | .vdict fs => !fs.isEmpty

/-! ## The paginated-retrieval loop (`get_lingqs_for_language`) -/

/-- One server response to a page request, as observed by the loop body:
* `http429` — `response.status_code == 429` (line 74);
* `ok results hasNext` — a success: `raise_for_status` passed and the body
  parsed, with `results = data.get('results', [])` and
  `hasNext = truthiness of data.get('next')` (lines 84–97);
* `exn429` — a `requests.exceptions.RequestException` whose text contains
  `"429"` (line 110), handled identically to `http429`;
* `fatal` — any other exception (lines 118–123). -/
inductive Response where
  | http429
  | ok (results : List PyVal) (hasNext : Bool)
  | exn429
  | fatal
deriving Repr

/-- The loop variables of `get_lingqs_for_language`:
`all_lingqs`, `page`, `consecutive_errors` (lines 57–59). -/
structure LoopState where
  allLingqs : List PyVal
  page : Nat
  consecutiveErrors : Nat
deriving Repr

/-- Initial loop state: `all_lingqs = []`, `page = 1`,
`consecutive_errors = 0` (lines 57–59). -/
def initState : LoopState := ⟨[], 1, 0⟩

/-- The progressive inter-page delay of lines 102–107, evaluated, as in the
source, on the value of `page` *after* `page += 1`. -/
def pageDelay (page : Nat) : Nat :=
  if page < 10 then 1 else if page < 50 then 2 else 3

/-- How one iteration of the `while True` loop ended. The source breaks out
of the loop in four places; we label the break after an empty batch (line 90)
or an absent continuation (line 97) as `done` (natural exhaustion), and the
break after retry-budget exhaustion (lines 81, 117) or a non-429 failure
(lines 120, 123) as `aborted`. `running` marks a run that consumed every
supplied response without breaking. -/
inductive Outcome where
  | done
  | aborted
  | running
deriving Repr, DecidableEq

/-- One iteration of the `while True` body (lines 63–123) on response `r`:
returns the updated loop state, `some` terminal outcome if the iteration
executed `break` (`none` if the loop continues), and the list of `time.sleep`
durations performed during the iteration, in seconds. -/
def step (s : LoopState) (r : Response) : LoopState × Option Outcome × List Nat :=
  match r with
  | .http429 =>
    -- lines 74–82: wait, sleep, increment counter, break if it exceeds 5
    let wait := 60 + s.consecutiveErrors * 30
    let errs := s.consecutiveErrors + 1
    if errs > 5 then ({ s with consecutiveErrors := errs }, some .aborted, [wait])
    else ({ s with consecutiveErrors := errs }, none, [wait])
  | .exn429 =>
    -- lines 109–117: identical handling of a RequestException mentioning 429
    let wait := 60 + s.consecutiveErrors * 30
    let errs := s.consecutiveErrors + 1
    if errs > 5 then ({ s with consecutiveErrors := errs }, some .aborted, [wait])
    else ({ s with consecutiveErrors := errs }, none, [wait])
  | .ok results hasNext =>
    -- line 86: consecutive_errors = 0; lines 88–107
    if results.isEmpty then
      ({ s with consecutiveErrors := 0 }, some .done, [])
    else
      let s1 := { s with allLingqs := s.allLingqs ++ results, consecutiveErrors := 0 }
      if !hasNext then (s1, some .done, [])
      else
        let p := s.page + 1
        ({ s1 with page := p }, none, [pageDelay p])
  | .fatal =>
    -- lines 118–123: log and break
    (s, some .aborted, [])

/-- The observable result of a run of the retrieval loop. `pages` records the
`page` parameter of each HTTP request issued, in order (one request per
response consumed). -/
structure RunResult where
  final : LoopState
  outcome : Outcome
  sleeps : List Nat
  pages : List Nat
deriving Repr

/-- The `while True` loop of `get_lingqs_for_language`, consuming one
response per request until some iteration breaks (or the supplied responses
run out, which the real server never does). -/
def runLoop : LoopState → List Response → RunResult
  | s, [] => ⟨s, .running, [], []⟩
  | s, r :: rs =>
    match step s r with
    | (s', some o, sl) => ⟨s', o, sl, [s.page]⟩
    | (s', none, sl) =>
      match runLoop s' rs with
      | ⟨f, o, sls, ps⟩ => ⟨f, o, sl ++ sls, s.page :: ps⟩

/-- `get_lingqs_for_language` run against a given response sequence. -/
def getLingqsForLanguage (responses : List Response) : RunResult :=
  runLoop initState responses

/-- The value the Python function actually returns (line 126): the
accumulated `all_lingqs` list, with no completeness tag attached. -/
def getLingqsReturn (responses : List Response) : List PyVal :=
  (getLingqsForLanguage responses).final.allLingqs

/-- The batches carried by the success responses of a list, in order; an
accepted page contributes its `results` list. -/
def okBatches : List Response → List (List PyVal)
  | [] => []
  | .ok results _ :: rs => results :: okBatches rs
  | _ :: rs => okBatches rs

/-! ## Record flattening (`flatten_lingq`, lines 128–160)

The Python function can raise on ill-shaped input, so the embedded
functions return `Option`, with `none` modelling a raised exception. -/

/-- The sort key `lambda x: x.get('popularity', 0)` of line 135. Popularity
scores are modelled as integers (as delivered by the API); a present
non-integer popularity, or a non-dict hint (whose `.get` would raise
`AttributeError`), is treated as an error. -/
def hintPop (h : PyVal) : Option Int :=
  match h with
  | .vdict fs =>
    match fs.lookup "popularity" with
    | none => some 0
    | some (.vint n) => some n
    | some _ => none
  | _ => none

/-- Stable insertion of a keyed hint into a popularity-descending list:
the new element goes before the first element whose key is not larger, so
among equal keys earlier (original-order) elements stay first — matching
the stability of Python's `sorted(..., reverse=True)`. -/
def insertByPopDesc (x : Int × PyVal) : List (Int × PyVal) → List (Int × PyVal)
  | [] => [x]
  | y :: ys => if x.1 < y.1 then y :: insertByPopDesc x ys else x :: y :: ys

/-- `sorted(hints, key=lambda x: x.get('popularity', 0), reverse=True)`
(line 135): stable, descending by popularity. -/
def sortByPopDesc : List (Int × PyVal) → List (Int × PyVal)
  | [] => []
  | x :: xs => insertByPopDesc x (sortByPopDesc xs)

/-- `str()` of a value as interpolated by the f-string on line 142. The
`repr` of containers is not needed by any record shape the program meets
and is not modelled (treated as an error). -/
def pyText : PyVal → Option String
  | .vnone => some "None"
  | .vbool b => some (if b then "True" else "False")
  | .vint n => some (toString n)
  | .vstr s => some s
  | _ => none

/-- The entry `f"{hint.get('text', '')} ({hint.get('locale', '')})"` built
for one hint on line 142; a non-dict hint raises (`.get`). -/
def fmtHint (h : PyVal) : Option String :=
  match h with
  | .vdict _ => do
    let t ← pyText (dictGet h "text" (.vstr ""))
    let lc ← pyText (dictGet h "locale" (.vstr ""))
    pure (t ++ " (" ++ lc ++ ")")
  | _ => none

/-- `', '.join(...)`-style argument: a list whose members must all be
strings (joining anything else raises `TypeError`; iterating a non-list
raises as well — a string argument, which Python would iterate by
character, never occurs and is treated as an error). -/
def strList : PyVal → Option (List String)
  | .vlist xs => xs.mapM (fun v => match v with | .vstr s => some s | _ => none)
  | _ => none

/-- Lines 131–137: the principal translation pick. If `lingq.get('hints')`
is truthy, sort the hints by popularity descending and take `text` and
`locale` of the first; otherwise both default to `''`. -/
def bestHintPair (hintsV : PyVal) : Option (PyVal × PyVal) :=
  if truthy hintsV then
    match hintsV with
    | .vlist hs => do
      let keyed ← hs.mapM (fun h => do
        let p ← hintPop h
        pure (p, h))
      match sortByPopDesc keyed with
      | (_, h0) :: _ => pure (dictGet h0 "text" (.vstr ""), dictGet h0 "locale" (.vstr ""))
      | [] => pure (.vstr "", .vstr "")
    | _ => none
  else
    pure (.vstr "", .vstr "")

/-- Lines 140–142: every hint of `lingq.get('hints', [])`, formatted in the
original wire order. -/
def allTranslations (hintsDefault : PyVal) : Option (List String) :=
  match hintsDefault with
  | .vlist hs => hs.mapM fmtHint
  | _ => none

/-- `flatten_lingq` (lines 128–160): the returned dict, as an association
list in the source's key order; `none` (any failed sub-computation) models
a raised exception. -/
def flattenLingq (lingq : PyVal) : Option (List (String × PyVal)) :=
  match bestHintPair (dictGet lingq "hints" .vnone),
        allTranslations (dictGet lingq "hints" (.vlist [])),
        strList (dictGet lingq "tags" (.vlist [])),
        strList (dictGet lingq "words" (.vlist [])) with
  | some pair, some allT, some tags, some words => some [
    ("id", dictGet lingq "pk" .vnone),
    ("term", dictGet lingq "term" (.vstr "")),
    ("fragment", dictGet lingq "fragment" (.vstr "")),
    ("best_translation", pair.1),
    ("translation_locale", pair.2),
    ("all_translations", .vstr (String.intercalate " | " allT)),
    ("importance", dictGet lingq "importance" (.vint 0)),
    ("status", dictGet lingq "status" (.vint 0)),
    ("notes", dictGet lingq "notes" (.vstr "")),
    ("tags", .vstr (String.intercalate ", " tags)),
    ("srs_due_date", dictGet lingq "srs_due_date" (.vstr "")),
    ("last_reviewed_correct", dictGet lingq "last_reviewed_correct" (.vstr "")),
    ("words", .vstr (String.intercalate ", " words)),
    ("audio", dictGet lingq "audio" (.vstr "")),
    ("url", dictGet lingq "url" (.vstr ""))
  ]
  | _, _, _, _ => none

/-! ## CSV export (`save_to_csv`, lines 168–188) -/

/-- The `fieldnames` list of lines 174–178. -/
def csvFieldnames : List String :=
  ["id", "term", "fragment", "best_translation", "translation_locale",
   "all_translations", "importance", "status", "notes", "tags",
   "srs_due_date", "last_reviewed_correct", "words", "audio", "url"]

/-- How `csv` renders one cell: `None` becomes the empty string, other
scalars their `str()`; container `repr`s never occur and are not modelled. -/
def cellStr : PyVal → Option String
  | .vnone => some ""
  | v => pyText v

/-- What `save_to_csv` did. -/
inductive CsvOutcome where
  | skipped
  | written (rows : List (List String))
  | raised
deriving Repr

/-- One `DictWriter.writerow` call (line 186): the flattened dict read back
in `fieldnames` order. -/
def csvRow (flat : List (String × PyVal)) : Option (List String) :=
  csvFieldnames.mapM (fun f => cellStr ((flat.lookup f).getD .vnone))

/-- `save_to_csv` (lines 168–188): with an empty input it prints
`"No LingQs to save"` and returns without creating a file (`skipped`);
otherwise it writes the header row followed by one flattened row per
record. -/
def saveToCsv (lingqs : List PyVal) : CsvOutcome :=
  if lingqs.isEmpty then .skipped
  else
    match lingqs.mapM (fun l => (flattenLingq l).bind csvRow) with
    | some rows => .written (csvFieldnames :: rows)
    | none => .raised

/-! ## Orchestration (`download_all_lingqs` lines 251–256, `main` 324–334) -/

/-- The per-language loop of `download_all_lingqs` (lines 251–256): an
association list standing for the `all_data` dict, which receives an entry
for a language only when its retrieved list is truthy (non-empty). The
server's behaviour for each language is a response sequence `server lang`. -/
def downloadAllLingqs (languages : List String) (server : String → List Response) :
    List (String × List PyVal) :=
  languages.foldl (fun allData lang =>
    let lingqs := getLingqsReturn (server lang)
    if lingqs.isEmpty then allData else allData ++ [(lang, lingqs)]) []

/-- `set(args.languages) - set(result.keys())` of `main` (line 331): the
requested languages reported as incomplete. -/
def incompleteLanguages (requested : List String) (server : String → List Response) :
    List String :=
  requested.filter (fun l =>
    !((downloadAllLingqs requested server).map Prod.fst).contains l)

/-! ## Concrete scenarios used in the theorems -/

/-- A server that answers the same page with five consecutive 429s and then
succeeds with a final one-record batch. -/
def fiveThrottlesThenOk : List Response :=
  List.replicate 5 .http429 ++ [.ok [.vstr "w"] false]

/-- The record of the spec's flattening example: hints
`[{text: casa, locale: es, popularity: 3}, {text: home, locale: en, popularity: 9}]`. -/
def exampleLingq : PyVal :=
  .vdict [("hints", .vlist [
    .vdict [("text", .vstr "casa"), ("locale", .vstr "es"), ("popularity", .vint 3)],
    .vdict [("text", .vstr "home"), ("locale", .vstr "en"), ("popularity", .vint 9)]])]

/-- A server whose partition delivers one record on page 1 and then hits a
non-429 transport failure on page 2, so retrieval aborts with a partial
result. -/
def abortedServer : String → List Response :=
  fun _ => [.ok [.vstr "w"] true, .fatal]

/-- The batch a single response contributes to `all_lingqs`: the `results`
list of a success, nothing otherwise. -/
def batchOf : Response → List PyVal
  | .ok results _ => results
  | _ => []

/-- The flattening of `exampleLingq`. -/
def exampleFlattened : List (String × PyVal) :=
  [("id", .vnone), ("term", .vstr ""), ("fragment", .vstr ""),
   ("best_translation", .vstr "home"), ("translation_locale", .vstr "en"),
   ("all_translations", .vstr "casa (es) | home (en)"),
   ("importance", .vint 0), ("status", .vint 0), ("notes", .vstr ""),
   ("tags", .vstr ""), ("srs_due_date", .vstr ""),
   ("last_reviewed_correct", .vstr ""), ("words", .vstr ""),
   ("audio", .vstr ""), ("url", .vstr "")]

/-- The flattening of the empty record `{}`: every default in one place. -/
def emptyFlattened : List (String × PyVal) :=
  [("id", .vnone), ("term", .vstr ""), ("fragment", .vstr ""),
   ("best_translation", .vstr ""), ("translation_locale", .vstr ""),
   ("all_translations", .vstr ""),
   ("importance", .vint 0), ("status", .vint 0), ("notes", .vstr ""),
   ("tags", .vstr ""), ("srs_due_date", .vstr ""),
   ("last_reviewed_correct", .vstr ""), ("words", .vstr ""),
   ("audio", .vstr ""), ("url", .vstr "")]

/-- The flattening of `{'hints': [{}]}` — a single hint missing its text,
locale and popularity. -/
def soleEmptyHintFlattened : List (String × PyVal) :=
  [("id", .vnone), ("term", .vstr ""), ("fragment", .vstr ""),
   ("best_translation", .vstr ""), ("translation_locale", .vstr ""),
   ("all_translations", .vstr " ()"),
   ("importance", .vint 0), ("status", .vint 0), ("notes", .vstr ""),
   ("tags", .vstr ""), ("srs_due_date", .vstr ""),
   ("last_reviewed_correct", .vstr ""), ("words", .vstr ""),
   ("audio", .vstr ""), ("url", .vstr "")]

/-! ## Theorems -/

/-- C1 (counterexample). Five consecutive 429s on page 1 do **not** abort the
run: the counter reaches only 5 (not `> 5`), the loop re-requests the page a
sixth time, that sixth request is issued (six pages requested in total), and
the run ends in `done` with the record collected. -/
theorem five_throttles_do_not_abort :
    (getLingqsForLanguage fiveThrottlesThenOk).outcome = Outcome.done ∧
    (getLingqsForLanguage fiveThrottlesThenOk).pages.length = 6 ∧
    (getLingqsForLanguage fiveThrottlesThenOk).final.allLingqs = [.vstr "w"] :=
  ⟨rfl, rfl, rfl⟩

/-- C1 (amended). From any state with the consecutive-throttle counter at 0,
exactly **6** consecutive throttle signals cause the transition to `aborted`
without ever advancing past the current page: the six requests all carry the
same page number, the six backoff sleeps are 60, 90, …, 210 seconds, the
accumulated records are kept, and a 7th request is never issued (whatever
responses would follow are never consumed). -/
theorem six_consecutive_throttles_abort (s : LoopState) (rest : List Response)
    (h : s.consecutiveErrors = 0) :
    runLoop s (List.replicate 6 .http429 ++ rest) =
      ⟨⟨s.allLingqs, s.page, 6⟩, .aborted, [60, 90, 120, 150, 180, 210],
        List.replicate 6 s.page⟩ := by
  obtain ⟨recs, pg, e⟩ := s
  cases h
  rfl

/-- C1 (witness): the amended theorem applied to the initial state. -/
theorem six_consecutive_throttles_abort_witness :
    runLoop initState (List.replicate 6 .http429 ++ []) =
      ⟨⟨[], 1, 6⟩, .aborted, [60, 90, 120, 150, 180, 210], List.replicate 6 1⟩ :=
  six_consecutive_throttles_abort initState [] rfl

/-- C3. A successful response with an empty batch ends the partition in
`done` whatever the continuation indicator says, appending nothing; a
successful non-empty batch without a continuation indicator first appends
the batch and then ends in `done`. Both breaks issue no further request and
perform no sleep. -/
theorem terminal_success_transitions :
    (∀ (s : LoopState) (b : Bool) (rest : List Response),
        runLoop s (.ok [] b :: rest) =
          ⟨{ s with consecutiveErrors := 0 }, .done, [], [s.page]⟩) ∧
    (∀ (s : LoopState) (x : PyVal) (res : List PyVal) (rest : List Response),
        runLoop s (.ok (x :: res) false :: rest) =
          ⟨{ s with allLingqs := s.allLingqs ++ x :: res, consecutiveErrors := 0 },
            .done, [], [s.page]⟩) :=
  ⟨fun _ _ _ => rfl, fun _ _ _ _ => rfl⟩

/-- C5. The inter-page delay is slept exactly once, in the
success-with-continuation step, and equals 1 second while the (just
incremented) page counter is below 10, 2 seconds while below 50, and 3
seconds thereafter; a throttled iteration sleeps only its backoff wait, and
terminal iterations (empty batch, final batch, fatal failure) sleep
nothing. -/
theorem inter_page_delay_policy :
    (∀ (s : LoopState) (x : PyVal) (res : List PyVal),
        step s (.ok (x :: res) true) =
          ({ s with allLingqs := s.allLingqs ++ x :: res, page := s.page + 1,
                    consecutiveErrors := 0 }, none,
            [if s.page + 1 < 10 then 1 else if s.page + 1 < 50 then 2 else 3])) ∧
    (∀ s : LoopState, (step s .http429).2.2 = [60 + s.consecutiveErrors * 30] ∧
        (step s .exn429).2.2 = [60 + s.consecutiveErrors * 30]) ∧
    (∀ (s : LoopState) (b : Bool), (step s (.ok [] b)).2.2 = []) ∧
    (∀ (s : LoopState) (x : PyVal) (res : List PyVal),
        (step s (.ok (x :: res) false)).2.2 = []) ∧
    (∀ s : LoopState, (step s .fatal).2.2 = []) := by
  refine ⟨fun s x res => rfl, fun s => ⟨?_, ?_⟩, fun s b => rfl, fun s x res => rfl,
    fun s => rfl⟩ <;>
  · simp only [step]
    split <;> rfl

/-- C4. The backoff wait slept for a throttle signal is
`60 + 30 × consecutive-throttle counter` seconds (the counter is reset to 0
by every successful fetch), so starting from a reset counter the Nth
consecutive throttle — which can only occur for `N ≤ 6` — sleeps exactly
`60 + 30 × (N − 1)` seconds: the first N sleeps are 60, 90, …, and the Nth
one is `60 + 30 × (N − 1)`. -/
theorem nth_backoff_wait :
    (∀ s : LoopState, (step s .http429).2.2 = [60 + 30 * s.consecutiveErrors] ∧
        (step s .exn429).2.2 = [60 + 30 * s.consecutiveErrors]) ∧
    (∀ (s : LoopState) (results : List PyVal) (hasNext : Bool),
        (step s (.ok results hasNext)).1.consecutiveErrors = 0) ∧
    (∀ (s : LoopState) (rest : List Response) (N : ℕ), s.consecutiveErrors = 0 →
        1 ≤ N → N ≤ 6 →
        (runLoop s (List.replicate N .http429 ++ rest)).sleeps.take N =
          (List.range N).map (fun i => 60 + 30 * i) ∧
        (runLoop s (List.replicate N .http429 ++ rest)).sleeps.get? (N - 1) =
          some (60 + 30 * (N - 1))) := by
  refine ⟨fun s => ⟨?_, ?_⟩, fun s results hasNext => ?_, fun s rest N h0 h1 h6 => ?_⟩
  · simp only [step]; split <;> simp [Nat.mul_comm]
  · simp only [step]; split <;> simp [Nat.mul_comm]
  · rcases results with _ | ⟨x, res⟩ <;> cases hasNext <;> rfl
  · obtain ⟨recs, pg, e⟩ := s
    cases h0
    interval_cases N <;>
      exact ⟨by simp [runLoop, step, List.replicate] <;> decide,
        by simp [runLoop, step, List.replicate] <;> decide⟩

/-- C4 (witness): the third consecutive throttle from a fresh state sleeps
`60 + 30 × 2 = 120` seconds. -/
theorem nth_backoff_wait_witness :
    (runLoop initState (List.replicate 3 .http429 ++ [])).sleeps.take 3 =
      (List.range 3).map (fun i => 60 + 30 * i) ∧
    (runLoop initState (List.replicate 3 .http429 ++ [])).sleeps.get? (3 - 1) =
      some (60 + 30 * (3 - 1)) :=
  nth_backoff_wait.2.2 initState [] 3 rfl (by decide) (by decide)

/-- `okBatches` distributes over cons. -/
theorem okBatches_cons_flatten (r : Response) (l : List Response) :
    (okBatches (r :: l)).flatten = batchOf r ++ (okBatches l).flatten := by
  cases r <;> simp [okBatches, batchOf]

/-- Each loop iteration appends to `all_lingqs` exactly the batch its
response carries. -/
theorem step_allLingqs (s : LoopState) (r : Response) :
    (step s r).1.allLingqs = s.allLingqs ++ batchOf r := by
  cases r with
  | http429 => simp only [step]; split <;> simp [batchOf]
  | exn429 => simp only [step]; split <;> simp [batchOf]
  | ok results hasNext =>
    rcases results with _ | ⟨x, res⟩
    · simp [step, batchOf]
    · cases hasNext <;> simp [step, batchOf]
  | fatal => simp [step, batchOf]

/-- The first request of a non-trivial run carries the entry page number. -/
theorem runLoop_head_page (s : LoopState) (r : Response) (rs : List Response) :
    (runLoop s (r :: rs)).pages.head? = some s.page := by
  simp only [runLoop]
  rcases h : step s r with ⟨s', o, sl⟩
  rcases o with _ | o
  · rcases h2 : runLoop s' rs with ⟨f, o2, sls, ps⟩
    simp
  · simp

/-- The records accumulated by a run are the entry records followed by the
concatenated batches of the success responses among the requests actually
issued — each consumed response is counted once. -/
theorem runLoop_allLingqs (rs : List Response) (s : LoopState) :
    (runLoop s rs).final.allLingqs =
      s.allLingqs ++ (okBatches (rs.take (runLoop s rs).pages.length)).flatten := by
  induction rs generalizing s with
  | nil => simp [runLoop, okBatches]
  | cons r rs ih =>
    simp only [runLoop]
    rcases h : step s r with ⟨s', o, sl⟩
    have hb : s'.allLingqs = s.allLingqs ++ batchOf r := by
      have hs := step_allLingqs s r
      rw [h] at hs
      exact hs
    rcases o with _ | o
    · simp only [List.length_cons, List.take_succ_cons, okBatches_cons_flatten]
      rw [ih s', hb, List.append_assoc]
    · simp only [List.length_cons, List.length_nil, List.take_succ_cons, List.take_zero,
        okBatches_cons_flatten]
      simp [hb, okBatches]

/-- C2. The first request of a run carries page 1; a successful non-empty
batch with a continuation indicator advances the page counter by exactly
one (so the next request asks for exactly the next page); throttles leave
the page unchanged; these are the only two ways an iteration can continue,
so a page is re-requested only across a throttle of that same page; and the
final record list is the entry records plus the batches of the consumed
success responses, concatenated once each — its length is the sum of the
accepted batch sizes with no double-counting across throttle retries. -/
theorem page_sequence_and_record_count :
    initState.page = 1 ∧
    (∀ (r : Response) (rs : List Response),
        (runLoop initState (r :: rs)).pages.head? = some 1) ∧
    (∀ (s : LoopState) (x : PyVal) (res : List PyVal),
        (step s (.ok (x :: res) true)).1.page = s.page + 1) ∧
    (∀ s : LoopState,
        (step s .http429).1.page = s.page ∧ (step s .exn429).1.page = s.page) ∧
    (∀ (s : LoopState) (r : Response), (step s r).2.1 = none →
        ((step s r).1.page = s.page ∧ (r = .http429 ∨ r = .exn429)) ∨
        ((step s r).1.page = s.page + 1 ∧ ∃ x res, r = .ok (x :: res) true)) ∧
    (∀ (s : LoopState) (rs : List Response),
        (runLoop s rs).final.allLingqs =
          s.allLingqs ++ (okBatches (rs.take (runLoop s rs).pages.length)).flatten) := by
  refine ⟨rfl, fun r rs => runLoop_head_page initState r rs, fun s x res => rfl,
    fun s => ⟨?_, ?_⟩, fun s r hc => ?_, fun s rs => runLoop_allLingqs rs s⟩
  · simp only [step]; split <;> rfl
  · simp only [step]; split <;> rfl
  · cases r with
    | http429 => exact Or.inl ⟨by simp only [step]; split <;> rfl, Or.inl rfl⟩
    | exn429 => exact Or.inl ⟨by simp only [step]; split <;> rfl, Or.inr rfl⟩
    | fatal => simp [step] at hc
    | ok results hasNext =>
      rcases results with _ | ⟨x, res⟩
      · simp [step] at hc
      · cases hasNext
        · simp [step] at hc
        · exact Or.inr ⟨rfl, x, res, rfl⟩

/-- C2 (witness): the continuation classification applied to a throttled
first request. -/
theorem page_sequence_and_record_count_witness :
    ((step initState .http429).1.page = initState.page ∧
      (Response.http429 = .http429 ∨ Response.http429 = .exn429)) ∨
    ((step initState .http429).1.page = initState.page + 1 ∧
      ∃ x res, Response.http429 = .ok (x :: res) true) :=
  page_sequence_and_record_count.2.2.2.2.1 initState .http429 rfl

/-- The per-language loop of `download_all_lingqs` stores, independently for
each language in order, exactly the languages whose retrieval returned a
non-empty list, paired with that list. -/
theorem downloadAll_eq_filterMap (languages : List String) (server : String → List Response) :
    downloadAllLingqs languages server =
      languages.filterMap (fun l =>
        let r := getLingqsReturn (server l)
        if r.isEmpty then none else some (l, r)) := by
  have key : ∀ (ls : List String) (acc : List (String × List PyVal)),
      ls.foldl (fun allData lang =>
        let lingqs := getLingqsReturn (server lang)
        if lingqs.isEmpty then allData else allData ++ [(lang, lingqs)]) acc =
      acc ++ ls.filterMap (fun l =>
        let r := getLingqsReturn (server l)
        if r.isEmpty then none else some (l, r)) := by
    intro ls
    induction ls with
    | nil => intro acc; simp
    | cons l ls ih =>
      intro acc
      simp only [List.foldl_cons, List.filterMap_cons]
      by_cases h : (getLingqsReturn (server l)).isEmpty <;> simp [h, ih]
  simpa using key languages []

/-- A language appears among `all_data`'s keys exactly when it was processed
and its retrieval returned at least one record. -/
theorem mem_downloadAll_keys (languages : List String) (server : String → List Response)
    (l : String) :
    l ∈ (downloadAllLingqs languages server).map Prod.fst ↔
      l ∈ languages ∧ getLingqsReturn (server l) ≠ [] := by
  rw [downloadAll_eq_filterMap]
  simp only [List.mem_map, List.mem_filterMap]
  constructor
  · rintro ⟨⟨a, r⟩, ⟨a', ha', hg⟩, rfl⟩
    split at hg
    · exact Option.noConfusion hg
    · rename_i hne
      obtain ⟨rfl, rfl⟩ : a' = a ∧ getLingqsReturn (server a') = r := by
        have := Option.some.inj hg
        exact ⟨congrArg Prod.fst this, congrArg Prod.snd this⟩
      exact ⟨ha', by simpa [List.isEmpty_iff] using hne⟩
  · rintro ⟨hl, hr⟩
    refine ⟨(l, getLingqsReturn (server l)), ⟨l, hl, ?_⟩, rfl⟩
    simp [List.isEmpty_iff, hr]

/-- C6 (counterexample). A partition that aborts mid-run with a partial
result is **not** listed as incomplete: `abortedServer` delivers one record
and then a fatal failure, so retrieval for `"de"` ends `aborted` with one
record, yet because the stored list is non-empty the language appears in
`all_data` and `main`'s incomplete set `requested − keys` comes out empty. -/
theorem aborted_partition_not_listed_incomplete :
    (getLingqsForLanguage (abortedServer "de")).outcome = Outcome.aborted ∧
    (getLingqsForLanguage (abortedServer "de")).final.allLingqs.length = 1 ∧
    incompleteLanguages ["de"] abortedServer = [] :=
  ⟨rfl, rfl, rfl⟩

/-- C6 (amended). The accumulated records survive an abort unchanged (the
same list is returned from either terminal state, but with no completeness
tag — `get_lingqs_for_language` returns only the list), and the
incomplete-languages report of `main` lists a requested language exactly
when its retrieval returned **zero records** — not when it failed to reach
completion. -/
theorem results_returned_and_incomplete_report (requested : List String)
    (server : String → List Response) (l : String) (hl : l ∈ requested) :
    (∀ (s : LoopState) (rest : List Response),
        (runLoop s (.fatal :: rest)).final.allLingqs = s.allLingqs ∧
        (runLoop s (.fatal :: rest)).outcome = .aborted) ∧
    (l ∈ incompleteLanguages requested server ↔ getLingqsReturn (server l) = []) := by
  refine ⟨fun s rest => ⟨rfl, rfl⟩, ?_⟩
  have hk := mem_downloadAll_keys requested server l
  simp only [incompleteLanguages, List.mem_filter, Bool.not_eq_true']
  constructor
  · rintro ⟨-, hc⟩
    have hnm : ¬ l ∈ (downloadAllLingqs requested server).map Prod.fst := by
      simpa using hc
    rw [hk] at hnm
    by_contra hne
    exact hnm ⟨hl, hne⟩
  · intro hr
    refine ⟨hl, ?_⟩
    have hnm : ¬ l ∈ (downloadAllLingqs requested server).map Prod.fst := by
      rw [hk]
      rintro ⟨-, hne⟩
      exact hne hr
    simpa using hnm

/-- C6 (witness): a requested language whose partition has no records at all
is reported incomplete. -/
theorem results_returned_and_incomplete_report_witness :
    (∀ (s : LoopState) (rest : List Response),
        (runLoop s (.fatal :: rest)).final.allLingqs = s.allLingqs ∧
        (runLoop s (.fatal :: rest)).outcome = .aborted) ∧
    ("de" ∈ incompleteLanguages ["de"] (fun _ => []) ↔
      getLingqsReturn ((fun (_ : String) => ([] : List Response)) "de") = []) :=
  results_returned_and_incomplete_report ["de"] (fun _ => []) "de" (by simp)

/-- C8. Partitions are processed independently: the orchestrator's stored
data is a per-language `filterMap`, so each language's entry is a function
of that language's responses alone; a non-throttle failure ends only its
own partition (`aborted`, keeping the records gathered so far, with no
exception escaping — the loop's value is still returned); and two servers
agreeing on the processed languages yield identical overall results, so one
partition's failures cannot influence another's outcome. -/
theorem partition_independence :
    (∀ (languages : List String) (server : String → List Response),
        downloadAllLingqs languages server =
          languages.filterMap (fun l =>
            let r := getLingqsReturn (server l)
            if r.isEmpty then none else some (l, r))) ∧
    (∀ (s : LoopState) (rest : List Response),
        runLoop s (.fatal :: rest) = ⟨s, .aborted, [], [s.page]⟩) ∧
    (∀ (languages : List String) (s1 s2 : String → List Response),
        (∀ l ∈ languages, s1 l = s2 l) →
        downloadAllLingqs languages s1 = downloadAllLingqs languages s2) := by
  refine ⟨downloadAll_eq_filterMap, fun s rest => rfl, ?_⟩
  intro languages s1 s2 hag
  rw [downloadAll_eq_filterMap, downloadAll_eq_filterMap]
  exact List.filterMap_congr (fun a ha => by rw [hag a ha])

/-- C8 (witness): changing an unprocessed partition's responses does not
change the orchestrator's result. -/
theorem partition_independence_witness :
    downloadAllLingqs ["de", "fr"] (fun _ => [.fatal]) =
      downloadAllLingqs ["de", "fr"] (fun l => if l = "it" then [] else [.fatal]) :=
  partition_independence.2.2 ["de", "fr"] (fun _ => [.fatal])
    (fun l => if l = "it" then [] else [.fatal]) (by intro l hl; fin_cases hl <;> rfl)

/-- Head of the popularity-descending stable sort is a maximal-popularity
element of the input. -/
theorem sortByPopDesc_head_max (l : List (Int × PyVal)) (hl : l ≠ []) :
    ∃ x ∈ l, (sortByPopDesc l).head? = some x ∧ ∀ y ∈ l, y.1 ≤ x.1 := by
  induction l with
  | nil => exact absurd rfl hl
  | cons a tl ih =>
    rcases tl with _ | ⟨b, tl'⟩
    · exact ⟨a, List.mem_singleton_self a, rfl, by
        intro y hy
        rw [List.mem_singleton] at hy
        exact hy ▸ le_refl _⟩
    · obtain ⟨x, hxmem, hhead, hmax⟩ := ih (by simp)
      rcases hsort : sortByPopDesc (b :: tl') with _ | ⟨z, rest⟩
      · rw [hsort] at hhead
        exact Option.noConfusion hhead
      · rw [hsort] at hhead
        have hz : z = x := by
          simpa using hhead
        subst hz
        by_cases hc : a.1 < z.1
        · refine ⟨z, List.mem_cons_of_mem a hxmem, ?_, ?_⟩
          · show (sortByPopDesc (a :: b :: tl')).head? = some z
            rw [show sortByPopDesc (a :: b :: tl') =
              insertByPopDesc a (sortByPopDesc (b :: tl')) from rfl, hsort]
            simp [insertByPopDesc, if_pos hc]
          · intro y hy
            rcases List.mem_cons.mp hy with rfl | hy'
            · exact le_of_lt hc
            · exact hmax y hy'
        · refine ⟨a, List.mem_cons_self a _, ?_, ?_⟩
          · show (sortByPopDesc (a :: b :: tl')).head? = some a
            rw [show sortByPopDesc (a :: b :: tl') =
              insertByPopDesc a (sortByPopDesc (b :: tl')) from rfl, hsort]
            simp [insertByPopDesc, if_neg hc]
          · intro y hy
            rcases List.mem_cons.mp hy with rfl | hy'
            · exact le_refl _
            · exact le_trans (hmax y hy') (not_lt.mp hc)

/-- C9. Flattening the spec's example record picks the maximal-popularity
hint (`home`, popularity 9) as principal translation with its locale `en`,
while the combined field lists every hint as `text (locale)` in the
original wire order (`casa (es)` first, despite its lower rank); and in
general the hint the principal pick reads (the head of the
popularity-descending sort) carries a popularity at least as large as
every other hint's. -/
theorem principal_translation_ranking :
    flattenLingq exampleLingq = some exampleFlattened ∧
    exampleFlattened.lookup "best_translation" = some (.vstr "home") ∧
    exampleFlattened.lookup "translation_locale" = some (.vstr "en") ∧
    exampleFlattened.lookup "all_translations" =
      some (.vstr "casa (es) | home (en)") ∧
    (∀ (l : List (Int × PyVal)), l ≠ [] →
        ∃ x ∈ l, (sortByPopDesc l).head? = some x ∧ ∀ y ∈ l, y.1 ≤ x.1) :=
  ⟨rfl, rfl, rfl, rfl, sortByPopDesc_head_max⟩

/-- C9 (witness): the ranking fact applied to the example's popularity
keys. -/
theorem principal_translation_ranking_witness :
    ∃ x ∈ [((3 : Int), PyVal.vnone), ((9 : Int), PyVal.vnone)],
      (sortByPopDesc [((3 : Int), PyVal.vnone), ((9 : Int), PyVal.vnone)]).head? = some x ∧
      ∀ y ∈ [((3 : Int), PyVal.vnone), ((9 : Int), PyVal.vnone)], y.1 ≤ x.1 :=
  principal_translation_ranking.2.2.2.2
    [((3 : Int), PyVal.vnone), ((9 : Int), PyVal.vnone)] (by simp)

/-- C7 (counterexample). `save_to_csv` on an empty record list does **not**
produce a header-only file: it prints `"No LingQs to save"` and returns
before opening any file, so nothing is written. -/
theorem save_to_csv_skips_empty_input :
    saveToCsv [] = CsvOutcome.skipped ∧
    saveToCsv [] ≠ CsvOutcome.written [csvFieldnames] :=
  ⟨rfl, fun h => CsvOutcome.noConfusion h⟩

/-- C7 (amended). A partition with zero records ends in `done` with an
empty result; but the tabular export *skips* file creation on an empty
input (and `download_all_lingqs` never even invokes an export for a
zero-record partition, which is dropped from `all_data`); whenever a
tabular file *is* written, its first row is the header. -/
theorem zero_record_partition_export (b : Bool) :
    (getLingqsForLanguage [.ok [] b]).outcome = Outcome.done ∧
    getLingqsReturn [.ok [] b] = [] ∧
    saveToCsv [] = CsvOutcome.skipped ∧
    (∀ (lingqs : List PyVal) (rows : List (List String)),
        saveToCsv lingqs = .written rows → rows.head? = some csvFieldnames) ∧
    (∀ lang : String, downloadAllLingqs [lang] (fun _ => [.ok [] b]) = []) := by
  refine ⟨rfl, rfl, rfl, ?_, fun lang => rfl⟩
  intro lingqs rows h
  simp only [saveToCsv] at h
  split at h
  · exact CsvOutcome.noConfusion h
  · rcases hm : lingqs.mapM (fun l => (flattenLingq l).bind csvRow) with _ | rows'
    · rw [hm] at h
      exact CsvOutcome.noConfusion h
    · rw [hm] at h
      injection h with h2
      subst h2
      rfl

/-- C7 (witness): the header-first fact applied to a one-record export. -/
theorem zero_record_partition_export_witness :
    ([csvFieldnames,
      ["", "", "", "home", "en", "casa (es) | home (en)", "0", "0",
       "", "", "", "", "", "", ""]] : List (List String)).head? = some csvFieldnames :=
  (zero_record_partition_export true).2.2.2.1 [exampleLingq]
    [csvFieldnames,
      ["", "", "", "home", "en", "casa (es) | home (en)", "0", "0",
       "", "", "", "", "", "", ""]]
    rfl

/-- C10 (counterexample). Flattening the empty record does not substitute
the empty string for every missing value: a missing `importance` becomes
the integer `0` and a missing `pk` becomes `None`, neither of which is the
empty string. -/
theorem missing_values_not_all_empty_string :
    flattenLingq (.vdict []) = some emptyFlattened ∧
    emptyFlattened.lookup "importance" = some (.vint 0) ∧
    emptyFlattened.lookup "id" = some .vnone ∧
    PyVal.vint 0 ≠ PyVal.vstr "" ∧ PyVal.vnone ≠ PyVal.vstr "" :=
  ⟨rfl, rfl, rfl, fun h => PyVal.noConfusion h, fun h => PyVal.noConfusion h⟩

/-- C10 (amended). Whenever flattening succeeds it produces exactly the
fifteen output fields in order; it succeeds on the record missing every
attribute (textual fields default to `''`, `importance` and `status` to
`0`, `id` to `None`, principal translation and locale to `''`), on a
record whose single hint is missing its text, locale and popularity
(popularity ranks as 0, the combined entry renders as `" ()"`), and on a
record with a present-but-empty hint list. -/
theorem flatten_total_fields_and_defaults :
    (∀ (v : PyVal) (out : List (String × PyVal)), flattenLingq v = some out →
        out.map Prod.fst = csvFieldnames) ∧
    flattenLingq (.vdict []) = some emptyFlattened ∧
    flattenLingq (.vdict [("hints", .vlist [.vdict []])]) = some soleEmptyHintFlattened ∧
    flattenLingq (.vdict [("hints", .vlist [])]) = some emptyFlattened := by
  refine ⟨?_, rfl, rfl, rfl⟩
  intro v out h
  simp only [flattenLingq] at h
  split at h
  · injection h with h2
    subst h2
    rfl
  · exact Option.noConfusion h

/-- C10 (witness): the field-list fact applied to the example record. -/
theorem flatten_total_fields_and_defaults_witness :
    exampleFlattened.map Prod.fst = csvFieldnames :=
  flatten_total_fields_and_defaults.1 exampleLingq exampleFlattened rfl
